import Mathlib

/-
Verification development for the douyin_getorder synchronization engine.

Shallow embedding of the core logic of the repository:
  - database.py   : _normalize_secret, save_orders (flatten / dedupe /
                    row building / ON CONFLICT DO UPDATE), upsert_task_status,
                    update_heartbeat
  - douyin_api.py : get_token (cache with 5-minute safety margin),
                    fetch_all_orders_by_day (per-day page loop with 200-page
                    cap, stall detection and error truncation)
  - main.py       : run_once (one sync cycle), run (main control loop),
                    smart_wait (cancellable 1-second sleeping)

Machine integers do not overflow in any of the translated paths, so time
instants and numeric payload fields are modelled as Int / Nat.  External
I/O (HTTP responses, the phone decryptor, the storage engine) enters the
model as explicit values and function parameters; everything the source
computes on those values is translated statement by statement.
-/

namespace DouyinSync

/-- Python truthiness of an optional string value: `None` and `""` are falsy. -/
def truthyStr : Option String → Bool
  | none => false
  | some s => decide (s ≠ "")

/-- Python truthiness of an optional integer value: `None` and `0` are falsy. -/
def truthyInt : Option Int → Bool
  | none => false
  | some n => decide (n ≠ 0)

/-
PhoneDecryptor: database.py `_normalize_secret` (lines 67-101).
The two while loops of the source are translated on the character list of
the stripped string; `'#' :: s` is `pad_char + secret`, `s ++ ['#']` is
`secret + pad_char`, `s.drop 1` is `secret[1:]`, `s.dropLast` is
`secret[:-1]`.
-/

/-- Padding loop of `_normalize_secret`: while the length is below 32,
prepend `'#'` and, if still below 32, append `'#'`. -/
def pad_loop (s : List Char) : List Char :=
  if s.length < 32 then
    let s1 := '#' :: s
    if s1.length < 32 then pad_loop (s1 ++ ['#']) else pad_loop s1
  else s
termination_by 32 - s.length
decreasing_by
  · simp only [List.length_append, List.length_cons, List.length_singleton]
    omega
  · simp only [List.length_cons]
    omega

/-- Trimming loop of `_normalize_secret`: while the length is above 32,
drop the first character and, if still above 32, drop the last one. -/
def trim_loop (s : List Char) : List Char :=
  if s.length > 32 then
    let s1 := s.drop 1
    if s1.length > 32 then trim_loop s1.dropLast else trim_loop s1
  else s
termination_by s.length
decreasing_by
  · simp only [List.length_dropLast, List.length_drop]
    omega
  · simp only [List.length_drop]
    omega

/-- Translation of `DatabaseManager._normalize_secret`: strip surrounding
whitespace, return unchanged at length 32, otherwise pad or trim to 32. -/
def _normalize_secret (secret : String) : String :=
  let s := secret.trim
  if s.length = 32 then s
  else if s.length < 32 then ⟨pad_loop s.data⟩
  else ⟨trim_loop s.data⟩

/-
TokenManager: douyin_api.py `get_token` (lines 65-111).  Time instants are
seconds as `Int`; `timedelta(minutes=5)` is 300 seconds.  The HTTP exchange
response is passed in as an explicit value of type `TokenResp` mirroring the
JSON body `{code, message, data: {access_token, expires_in}}`.
-/

/-- Cached token state of the `DouyinAPI` client: `_access_token` and
`_token_expire_time`. -/
structure TokenState where
  access_token : Option String
  token_expire_time : Option Int
deriving DecidableEq, Repr

/-- Payload `data` of the token-exchange response body. -/
structure TokenRespData where
  access_token : Option String
  expires_in : Option Int
deriving DecidableEq, Repr

/-- Token-exchange response body `{code, message, data}`; `code` models
`data.get('code', 0)`. -/
structure TokenResp where
  code : Int
  message : Option String
  data : Option TokenRespData
deriving DecidableEq, Repr

/-- Result of `get_token`: the token and the updated cache, with a flag
recording whether a fresh credential exchange was performed, or the
`ValueError` the source raises on a failed exchange. -/
inductive TokenResult where
  | ok (token : String) (st : TokenState) (exchanged : Bool)
  | err (msg : String)
deriving DecidableEq, Repr

/-- Exchange path of `get_token`: a non-zero `code` or missing
`data`/`access_token` raises; otherwise the new token is cached with expiry
`now + expires_in` (default 7200). -/
def get_token_exchange (now : Int) (resp : TokenResp) : TokenResult :=
  if resp.code ≠ 0 then
    TokenResult.err ("获取 token 失败: " ++ resp.message.getD "未知错误")
  else
    match resp.data with
    | none => TokenResult.err "获取 token 失败: missing data"
    | some d =>
      match d.access_token with
      | none => TokenResult.err "获取 token 失败: missing access_token"
      | some t =>
        TokenResult.ok t ⟨some t, some (now + d.expires_in.getD 7200)⟩ true

/-- Translation of `DouyinAPI.get_token`: return the cached token while
`now < expire_time - 5 minutes` (with the cached fields truthy), otherwise
perform the credential exchange. -/
def get_token (st : TokenState) (now : Int) (resp : TokenResp) : TokenResult :=
  match st.access_token, st.token_expire_time with
  | some tok, some exp =>
    if tok ≠ "" ∧ now < exp - 300 then TokenResult.ok tok st false
    else get_token_exchange now resp
  | some _, none => get_token_exchange now resp
  | none, _ => get_token_exchange now resp

/-
TaskController storage: database.py `upsert_task_status` (386-428),
`update_heartbeat` (459-478).  The `task_monitor` table is an association
list keyed by `task_id`; `query(...).filter_by(task_id).first()` is a
first-match lookup, the SQL `UPDATE ... WHERE task_id = ...` maps over all
matching rows.
-/

/-- Row of the `task_monitor` table. -/
structure TaskRow where
  status : String
  last_sync_time : Option String
  last_heartbeat : Option Int
  target_command : Option String
  error_message : Option String
  created_at : Int
  updated_at : Int
deriving DecidableEq, Repr

/-- Storage state of the `task_monitor` table. -/
abbrev TaskDB := List (String × TaskRow)

/-- First-match lookup, modelling `filter_by(task_id=...).first()`. -/
def task_lookup : TaskDB → String → Option TaskRow
  | [], _ => none
  | (k, t) :: rest, id => if k = id then some t else task_lookup rest id

/-- Applies an in-place update to the first row with the given key,
modelling the mutation of the ORM object returned by `.first()`. -/
def replace_first : TaskDB → String → (TaskRow → TaskRow) → TaskDB
  | [], _, _ => []
  | (k, t) :: rest, id, f =>
    if k = id then (k, f t) :: rest else (k, t) :: replace_first rest id f

/-- Translation of `DatabaseManager.upsert_task_status`: update the existing
row in place, overwriting `last_sync_time` and `error_message` only when the
passed value is truthy, or insert a fresh row with `last_heartbeat = now`
when no row exists for the task id. -/
def upsert_task_status (db : TaskDB) (task_id status : String)
    (last_sync_time error_message : Option String) (now : Int) : TaskDB :=
  match task_lookup db task_id with
  | some _ =>
    replace_first db task_id (fun t =>
      { t with
        status := status
        last_sync_time :=
          if truthyStr last_sync_time then last_sync_time else t.last_sync_time
        error_message :=
          if truthyStr error_message then error_message else t.error_message
        updated_at := now })
  | none =>
    db ++ [(task_id,
      { status := status
        last_sync_time := last_sync_time
        last_heartbeat := some now
        target_command := none
        error_message := error_message
        created_at := now
        updated_at := now })]

/-- Translation of `DatabaseManager.update_heartbeat`: an UPDATE of
`last_heartbeat` on every row matching the task id; a zero-row match leaves
the table as it was. -/
def update_heartbeat_db (db : TaskDB) (task_id : String) (now : Int) : TaskDB :=
  db.map (fun p =>
    if p.1 = task_id then (p.1, { p.2 with last_heartbeat := some now }) else p)

/-
OrderRepository: database.py `save_orders` (259-384).  A raw order is the
JSON object handed over by the fetcher; only the keys the source reads are
modelled, plus the object itself is retained verbatim as `raw_data`.
`datetime.fromtimestamp` is injective and order-preserving, so calendar
instants are represented by their epoch seconds.
-/

/-- Entry of the nested `products` list of a raw order. -/
structure Product where
  sku_id : Option String
deriving DecidableEq, Repr

/-- Entry of the `contacts` list of a raw order. -/
structure Contact where
  phone_encrypt : Option String
deriving DecidableEq, Repr

/-- Raw order payload: the fields `save_orders` reads via `.get`. -/
structure RawOrder where
  order_id : Option String
  order_status : Option String
  sku_id : Option String
  sku_name : Option String
  pay_amount : Option Int
  count : Option Int
  pay_time : Option Int
  create_order_time : Option Int
  update_order_time : Option Int
  source_order_id : Option String
  products : List Product
  contacts : List Contact
deriving DecidableEq, Repr

/-- Row of the `orders` table, one column per field of the `Order` model. -/
structure OrderRow where
  order_id : Option String
  order_status : Option String
  sku_id : Option String
  sku_name : Option String
  pay_amount : Option Int
  count : Int
  pay_time : Option Int
  create_time : Option Int
  update_time : Option Int
  source_order_id : Option String
  phone : Option String
  raw_data : RawOrder
  sync_time : Int
deriving DecidableEq, Repr

/-- Storage state of the `orders` table. -/
abbrev Store := List OrderRow

/-- Item of the batch handed to `save_orders`: a raw-order object, or one
nested day-batch of raw orders (the defensive one-level unwrap case). -/
inductive Item where
  | obj (o : RawOrder)
  | arr (l : List RawOrder)
deriving DecidableEq, Repr

/-- Flatten step of `save_orders`: only when the first element is itself a
list, every list element is spliced and every other element kept. -/
def flatten_once (l : List Item) : List Item :=
  match l with
  | [] => []
  | Item.arr _ :: _ =>
    l.flatMap (fun it =>
      match it with
      | Item.arr xs => xs.map Item.obj
      | Item.obj o => [Item.obj o])
  | _ => l

/-- Python-dict keyed insertion: an existing key keeps its position and gets
the new value, a new key is appended. -/
def dictInsert (m : List (String × RawOrder)) (k : String) (v : RawOrder) :
    List (String × RawOrder) :=
  if m.any (fun p => p.1 == k) then
    m.map (fun p => if p.1 = k then (p.1, v) else p)
  else m ++ [(k, v)]

/-- One entry of the dedup pass of `save_orders`: non-dict entries are
skipped, entries with a falsy `order_id` are dropped, later occurrences of
an id overwrite earlier ones (`unique_orders_map[order_id] = order`). -/
def dedupeStep (m : List (String × RawOrder)) (it : Item) :
    List (String × RawOrder) :=
  match it with
  | Item.obj o =>
    match o.order_id with
    | some oid => if oid ≠ "" then dictInsert m oid o else m
    | none => m
  | Item.arr _ => m

/-- Dedup pass of `save_orders` over the flattened list. -/
def dedupe (l : List Item) : List (String × RawOrder) :=
  l.foldl dedupeStep []

/-- The `datetime.fromtimestamp(ts) if ts else None` conversions of
`save_orders`, with instants kept as epoch seconds. -/
def py_ts (ts : Option Int) : Option Int :=
  if truthyInt ts then ts else none

/-- The `sku_id` extraction of `save_orders`: the top-level value when
truthy, otherwise the first entry of `products` when the list is non-empty. -/
def extract_sku_id (o : RawOrder) : Option String :=
  let s := o.sku_id
  if truthyStr s then s
  else
    match o.products with
    | [] => s
    | p :: _ => p.sku_id

/-- The phone extraction of `save_orders`: decrypt `phone_encrypt` of the
first contact only when it is truthy and an app secret is configured; a
decryption failure (`decryptFn` returning `none`) leaves the phone null. -/
def extract_phone (decryptFn : String → Option String) (secret_set : Bool)
    (o : RawOrder) : Option String :=
  match (match o.contacts with | [] => none | c :: _ => c.phone_encrypt) with
  | some e => if e ≠ "" ∧ secret_set then decryptFn e else none
  | none => none

/-- Row construction of `save_orders` for one surviving raw order. -/
def buildRow (decryptFn : String → Option String) (secret_set : Bool)
    (now : Int) (order_data : RawOrder) : OrderRow :=
  { order_id := order_data.order_id
    order_status := order_data.order_status
    sku_id := extract_sku_id order_data
    sku_name := order_data.sku_name
    pay_amount := order_data.pay_amount
    count := order_data.count.getD 1
    pay_time := py_ts order_data.pay_time
    create_time := py_ts order_data.create_order_time
    update_time := py_ts order_data.update_order_time
    source_order_id := order_data.source_order_id
    phone := extract_phone decryptFn secret_set order_data
    raw_data := order_data
    sync_time := now }

/-- The `set_` clause of the `ON CONFLICT DO UPDATE` statement of
`save_orders`: exactly the columns listed in the source are overwritten from
the excluded (new) row. -/
def on_conflict_update (old excluded : OrderRow) : OrderRow :=
  { old with
    order_status := excluded.order_status
    sku_id := excluded.sku_id
    sku_name := excluded.sku_name
    pay_amount := excluded.pay_amount
    count := excluded.count
    pay_time := excluded.pay_time
    update_time := excluded.update_time
    source_order_id := excluded.source_order_id
    phone := excluded.phone
    raw_data := excluded.raw_data
    sync_time := excluded.sync_time }

/-- Effect of one VALUES row of the upsert statement on the table: an
existing row with the same `order_id` is updated per `on_conflict_update`,
otherwise the row is inserted. -/
def upsertRow (s : Store) (r : OrderRow) : Store :=
  if s.any (fun old => old.order_id == r.order_id) then
    s.map (fun old =>
      if old.order_id = r.order_id then on_conflict_update old r else old)
  else s ++ [r]

/-- Translation of `DatabaseManager.save_orders`: empty input returns 0,
one-level flatten, dedupe by `order_id`, row construction, then one
insert-or-overwrite statement whose row count is the number of VALUES rows. -/
def save_orders (decryptFn : String → Option String) (secret_set : Bool)
    (now : Int) (store : Store) (orders_data : List Item) : Store × Nat :=
  if orders_data.isEmpty then (store, 0)
  else
    let orders_list := flatten_once orders_data
    let clean := dedupe orders_list
    if clean.isEmpty then (store, 0)
    else
      let order_list :=
        clean.map (fun kv => buildRow decryptFn secret_set now kv.2)
      (order_list.foldl upsertRow store, order_list.length)

/-
OrderFetcher: douyin_api.py `fetch_all_orders_by_day` (209-294).  A single
page fetch is abstracted as a function from the cursor to either an
exception (`requests` errors, the `ValueError` of a failed token exchange
inside `fetch_orders`, or a non-zero API code) or a parsed page; the day
structure of the outer loop is a list of per-day fetch functions.
-/

/-- Parsed result of one `fetch_orders` call. -/
structure Page where
  orders : List RawOrder
  has_more : Bool
  next_cursor : String
deriving DecidableEq, Repr

/-- Exception raised inside a page fetch: a token-exchange failure
(`ValueError` out of `get_token`), a non-zero API code, or an HTTP error. -/
inductive FetchErr where
  | auth (msg : String)
  | api (msg : String)
  | http
deriving DecidableEq, Repr

/-- Inner pagination loop of `fetch_all_orders_by_day` for one day:
`while page_count < 200`, check the stop callback, fetch, accumulate, stop
on `not has_more`, on `next_cursor == cursor`, or on any exception.  The
last component counts the `fetch_orders` calls performed.  The structural
`fuel` argument starts at 200, keeping `fuel = 200 - page_count`
throughout, so the `page_count < 200` guard of the source always fires
before the fuel runs out. -/
def page_loop_aux (fetch : String → Except FetchErr Page) (stop : Nat → Bool) :
    Nat → String → Nat → List RawOrder → Nat → List RawOrder × Nat
  | 0, _, _, acc, calls => (acc, calls)
  | fuel + 1, cursor, page_count, acc, calls =>
    if page_count < 200 then
      if stop page_count then (acc, calls)
      else
        match fetch cursor with
        | Except.error _ => (acc, calls + 1)
        | Except.ok page =>
          let acc2 := acc ++ page.orders
          if page.has_more = false ∨ page.next_cursor = cursor then
            (acc2, calls + 1)
          else
            page_loop_aux fetch stop fuel page.next_cursor (page_count + 1)
              acc2 (calls + 1)
    else (acc, calls)

/-- One day of `fetch_all_orders_by_day`: the pagination starts at cursor
`"0"` with `page_count = 0` and an empty accumulator. -/
def page_loop (fetch : String → Except FetchErr Page) (stop : Nat → Bool) :
    List RawOrder × Nat :=
  page_loop_aux fetch stop 200 "0" 0 [] 0

/-- Day loop of `fetch_all_orders_by_day`: when the stop flag is set the
stream aborts; otherwise each day's page loop runs and the day batch is
yielded only when non-empty. -/
def fetch_all_orders_by_day (stopFlag : Bool)
    (days : List (String → Except FetchErr Page)) : List (List RawOrder) :=
  if stopFlag then []
  else
    days.filterMap (fun f =>
      let day_orders := (page_loop f (fun _ => stopFlag)).1
      if day_orders.isEmpty then none else some day_orders)

/-
SyncOrchestrator: main.py `run_once` (85-163), `smart_wait` (165-190),
`run` (192-236).  The observable storage side effects of one cycle are
recorded as a trace of events.
-/

/-- Observable storage calls made by `run_once`. -/
inductive SyncEvent where
  | set_status (status : String) (last_sync_time : Option String)
      (error_message : Option String)
  | upsert_call (arg : List Item)
deriving DecidableEq, Repr

/-- Outcome of `run_once`: the returned count, or the re-raised exception. -/
inductive RunResult where
  | ok (n : Nat)
  | exc (msg : String)
deriving DecidableEq, Repr

/-- Translation of `DouyinOrderSync.run_once`: set status RUNNING, drain the
whole day-batch generator with `list(orders)`, return 0 on an empty list,
otherwise call `save_orders` once with the list of day batches and set
status RUNNING with the window end time; a storage exception sets status
ERROR with the message and re-raises.  `save_raises` models whether the
storage write raises. -/
def run_once (decryptFn : String → Option String) (secret_set : Bool)
    (now : Int) (save_raises : Bool) (sync_time_str : String) (store : Store)
    (days : List (String → Except FetchErr Page)) :
    List SyncEvent × RunResult × Store :=
  let evs0 := [SyncEvent.set_status "RUNNING" none none]
  let orders_list := fetch_all_orders_by_day false days
  if orders_list.isEmpty then (evs0, RunResult.ok 0, store)
  else if save_raises then
    (evs0 ++ [SyncEvent.set_status "ERROR" none (some "storage error")],
     RunResult.exc "storage error", store)
  else
    let arg := orders_list.map Item.arr
    let saved := save_orders decryptFn secret_set now store arg
    (evs0 ++ [SyncEvent.upsert_call arg,
              SyncEvent.set_status "RUNNING" (some sync_time_str) none],
     RunResult.ok saved.2, saved.1)

/-- The arguments of the `save_orders` calls recorded in a cycle trace. -/
def upsert_calls (evs : List SyncEvent) : List (List Item) :=
  evs.filterMap (fun e =>
    match e with
    | SyncEvent.upsert_call a => some a
    | _ => none)

/-- Whether an event sets the task status to ERROR. -/
def is_error_status : SyncEvent → Bool
  | SyncEvent.set_status s _ _ => s == "ERROR"
  | _ => false

/-- Translation of `DouyinOrderSync.smart_wait`: up to `seconds` one-second
sleeps, returning early as soon as the running flag is cleared or the STOP
command is seen; the result is the number of completed one-second sleeps. -/
def smart_wait : Nat → (Nat → Bool) → (Nat → Bool) → Nat
  | 0, _, _ => 0
  | n + 1, running, stop_cmd =>
    if running 0 = false then 0
    else if stop_cmd 0 then 0
    else smart_wait n (fun i => running (i + 1)) (fun i => stop_cmd (i + 1)) + 1

/-- Observable actions of one iteration of the main loop. -/
inductive LoopEvent where
  | set_status (status : String)
  | heartbeat
  | run_cycle
  | wait (seconds : Nat)
deriving DecidableEq, Repr

/-- Translation of one iteration of `DouyinOrderSync.run`: on a STOP command
set status STOPPED and wait 10 seconds; otherwise report the heartbeat, run
the cycle and wait 60 seconds after a failure or the configured interval
after a success. -/
def main_loop_iter (should_stop : Bool) (cycle_fails : Bool)
    (sync_interval : Nat) : List LoopEvent :=
  if should_stop then [LoopEvent.set_status "STOPPED", LoopEvent.wait 10]
  else if cycle_fails then
    [LoopEvent.heartbeat, LoopEvent.run_cycle, LoopEvent.wait 60]
  else
    [LoopEvent.heartbeat, LoopEvent.run_cycle, LoopEvent.wait sync_interval]

/-- Trace of a run of the main loop over a sequence of iterations, each
described by the polled STOP command and whether `run_once` raised. -/
def main_loop_trace (iters : List (Bool × Bool)) (sync_interval : Nat) :
    List LoopEvent :=
  iters.flatMap (fun it => main_loop_iter it.1 it.2 sync_interval)

/-
Concrete sample data used by closed-form theorems below.
-/

/-- Decryptor that always fails, modelling a run without usable secret. -/
def dFn0 : String → Option String := fun _ => none

/-- Sample raw order with id `"O1"` and no other payload. -/
def sampleO1 : RawOrder :=
  ⟨some "O1", none, none, none, none, none, none, none, none, none, [], []⟩

/-- Sample raw order with id `"O2"` and no other payload. -/
def sampleO2 : RawOrder :=
  ⟨some "O2", none, none, none, none, none, none, none, none, none, [], []⟩

/-- Day whose single page returns `sampleO1` and no continuation. -/
def day1 : String → Except FetchErr Page :=
  fun _ => Except.ok ⟨[sampleO1], false, "0"⟩

/-- Day whose single page returns `sampleO2` and no continuation. -/
def day2 : String → Except FetchErr Page :=
  fun _ => Except.ok ⟨[sampleO2], false, "0"⟩

/-- Day on which every page fetch raises the `ValueError` of a failed token
exchange inside `fetch_orders`. -/
def authDay : String → Except FetchErr Page :=
  fun _ => Except.error (FetchErr.auth "获取 token 失败: bad credentials")

/-- Raw order `"A"` as first synced, with creation timestamp 111. -/
def rawOld : RawOrder :=
  ⟨some "A", none, none, none, none, none, none, some 111, none, none, [], []⟩

/-- Raw order `"A"` as re-synced, now PAID and with creation timestamp 222. -/
def rawNew : RawOrder :=
  ⟨some "A", some "PAID", none, none, none, none, none, some 222, none, none, [], []⟩

/-- Stored row for `rawOld`, as written by a first cycle at time 5. -/
def oldRowA : OrderRow := buildRow dFn0 false 5 rawOld

/-- Sample task-monitor row left behind by a failed cycle. -/
def sampleTaskRow : TaskRow := ⟨"ERROR", none, none, none, some "boom", 0, 0⟩

/-
Theorems.  Each claim of the specification is settled below; helper lemmas
come first.
-/

theorem pad_loop_length_aux :
    ∀ (n : Nat) (s : List Char), 32 - s.length ≤ n → s.length ≤ 32 →
      (pad_loop s).length = 32 := by
  intro n
  induction n with
  | zero =>
    intro s h1 h2
    rw [pad_loop]
    have h : ¬ s.length < 32 := by omega
    simp only [h, if_false]
    omega
  | succ n ih =>
    intro s h1 h2
    rw [pad_loop]
    by_cases h : s.length < 32
    · simp only [h, if_true]
      by_cases h3 : ('#' :: s).length < 32
      · simp only [h3, if_true]
        apply ih
        · simp only [List.length_append, List.length_cons, List.length_nil] at h3 ⊢
          omega
        · simp only [List.length_append, List.length_cons, List.length_nil] at h3 ⊢
          omega
      · simp only [h3, if_false]
        apply ih
        · simp only [List.length_cons] at h3 ⊢
          omega
        · simp only [List.length_cons] at h3 ⊢
          omega
    · simp only [h, if_false]
      omega

theorem trim_loop_length_aux :
    ∀ (n : Nat) (s : List Char), s.length ≤ n → 32 ≤ s.length →
      (trim_loop s).length = 32 := by
  intro n
  induction n with
  | zero =>
    intro s h1 h2
    omega
  | succ n ih =>
    intro s h1 h2
    rw [trim_loop]
    by_cases h : s.length > 32
    · simp only [h, if_true]
      by_cases h3 : (s.drop 1).length > 32
      · simp only [h3, if_true]
        apply ih
        · simp only [List.length_dropLast, List.length_drop] at h3 ⊢
          omega
        · simp only [List.length_dropLast, List.length_drop] at h3 ⊢
          omega
      · simp only [h3, if_false]
        apply ih
        · simp only [List.length_drop] at h3 ⊢
          omega
        · simp only [List.length_drop] at h3 ⊢
          omega
    · simp only [h, if_false]
      omega

/-- C7: for every non-empty input string, `_normalize_secret` returns a
string of exactly 32 characters — padding when shorter, trimming when
longer — and returns a 32-character stripped input unchanged. -/
theorem normalize_secret_spec (s : String) (h : s ≠ "") :
    (_normalize_secret s).length = 32 ∧
    (s.trim.length = 32 → _normalize_secret s = s.trim) := by
  constructor
  · unfold _normalize_secret
    by_cases h32 : s.trim.length = 32
    · simp only [h32, if_true]
    · simp only [h32, if_false]
      by_cases hlt : s.trim.length < 32
      · simp only [hlt, if_true]
        show (pad_loop s.trim.data).length = 32
        exact pad_loop_length_aux 32 _ (by omega) (by
          have : s.trim.length = s.trim.data.length := rfl
          omega)
      · simp only [hlt, if_false]
        show (trim_loop s.trim.data).length = 32
        exact trim_loop_length_aux s.trim.data.length _ le_rfl (by
          have : s.trim.length = s.trim.data.length := rfl
          omega)
  · intro h32
    simp only [_normalize_secret, h32, if_true]

theorem normalize_secret_spec_witness :
    ("abc" : String) ≠ "" ∧
    ((_normalize_secret "abc").length = 32 ∧
      (("abc" : String).trim.length = 32 → _normalize_secret "abc" = ("abc" : String).trim)) :=
  ⟨by decide, normalize_secret_spec "abc" (by decide)⟩

/-- C6: `get_token` returns the cached token unchanged, without an
exchange, whenever the current time is strictly before the cached expiry
minus 5 minutes, and performs a fresh credential exchange otherwise; in
particular, a token cached at `T` with `expires_in = 7200` is returned
from cache at `T + 100` and re-exchanged at `T + 7000`. -/
theorem get_token_cache_spec :
    (∀ (tok : String) (exp now : Int) (resp : TokenResp), tok ≠ "" →
        now < exp - 300 →
        get_token ⟨some tok, some exp⟩ now resp =
          TokenResult.ok tok ⟨some tok, some exp⟩ false) ∧
    (∀ (tok : String) (exp now : Int) (resp : TokenResp), ¬ now < exp - 300 →
        get_token ⟨some tok, some exp⟩ now resp = get_token_exchange now resp) ∧
    (∀ (tok : String) (T : Int) (resp : TokenResp), tok ≠ "" →
        get_token ⟨some tok, some (T + 7200)⟩ (T + 100) resp =
          TokenResult.ok tok ⟨some tok, some (T + 7200)⟩ false) ∧
    (∀ (tok : String) (T : Int) (resp : TokenResp),
        get_token ⟨some tok, some (T + 7200)⟩ (T + 7000) resp =
          get_token_exchange (T + 7000) resp) := by
  refine ⟨?_, ?_, ?_, ?_⟩
  · intro tok exp now resp htok hlt
    simp [get_token, htok, hlt]
  · intro tok exp now resp hge
    simp [get_token, hge]
  · intro tok T resp htok
    have hlt : T + 100 < T + 7200 - 300 := by omega
    simp [get_token, htok, hlt]
  · intro tok T resp
    have hge : ¬ T + 7000 < T + 7200 - 300 := by omega
    simp [get_token, hge]

theorem get_token_cache_spec_witness :
    ("tk" : String) ≠ "" ∧
    get_token ⟨some "tk", some (0 + 7200)⟩ (0 + 100) ⟨1, none, none⟩ =
      TokenResult.ok "tk" ⟨some "tk", some (0 + 7200)⟩ false ∧
    get_token ⟨some "tk", some (0 + 7200)⟩ (0 + 7000) ⟨1, none, none⟩ =
      get_token_exchange (0 + 7000) ⟨1, none, none⟩ :=
  ⟨by decide,
   get_token_cache_spec.2.2.1 "tk" 0 ⟨1, none, none⟩ (by decide),
   get_token_cache_spec.2.2.2 "tk" 0 ⟨1, none, none⟩⟩

theorem replace_first_lookup (db : TaskDB) (id : String) (t : TaskRow)
    (f : TaskRow → TaskRow) (h : task_lookup db id = some t) :
    task_lookup (replace_first db id f) id = some (f t) := by
  induction db with
  | nil => simp [task_lookup] at h
  | cons p rest ih =>
    obtain ⟨k, t'⟩ := p
    by_cases hk : k = id
    · subst hk
      have ht : t' = t := by simpa [task_lookup] using h
      subst ht
      simp [replace_first, task_lookup]
    · simp only [task_lookup, if_neg hk] at h
      simp only [replace_first, if_neg hk, task_lookup]
      exact ih h

/-- C9: a `setStatus` call on an existing task row that omits
`errorMessage` (or passes a falsy value) leaves the stored `errorMessage`
unchanged, and likewise for `lastSyncTime`; in particular an
ERROR-to-RUNNING recovery update keeps the previous cycle's error
message in the row. -/
theorem upsert_task_status_frame_spec :
    (∀ (db : TaskDB) (id status : String) (t : TaskRow)
        (lst em : Option String) (now : Int),
        task_lookup db id = some t →
        truthyStr lst = false → truthyStr em = false →
        task_lookup (upsert_task_status db id status lst em now) id =
          some { t with status := status, updated_at := now }) ∧
    (∀ (db : TaskDB) (id : String) (t : TaskRow) (lst : Option String) (now : Int),
        task_lookup db id = some t → truthyStr lst = true →
        task_lookup (upsert_task_status db id "RUNNING" lst none now) id =
          some { t with
                  status := "RUNNING"
                  last_sync_time := lst
                  updated_at := now }) := by
  constructor
  · intro db id status t lst em now h hlst hem
    unfold upsert_task_status
    rw [h, replace_first_lookup db id t _ h]
    simp [hlst, hem]
  · intro db id t lst now h hlst
    unfold upsert_task_status
    rw [h, replace_first_lookup db id t _ h]
    have hem : truthyStr (none : Option String) = false := rfl
    simp [hlst, hem]

theorem upsert_task_status_frame_spec_witness :
    task_lookup [("t1", sampleTaskRow)] "t1" = some sampleTaskRow ∧
    truthyStr none = false ∧
    task_lookup
        (upsert_task_status [("t1", sampleTaskRow)] "t1" "RUNNING" none none 7) "t1" =
      some { sampleTaskRow with status := "RUNNING", updated_at := 7 } :=
  ⟨by decide, by decide,
   upsert_task_status_frame_spec.1 [("t1", sampleTaskRow)] "t1" "RUNNING"
     sampleTaskRow none none 7 (by decide) (by decide) (by decide)⟩

/-- C10: a heartbeat update for a task id with no existing row in the
task-monitor table raises nothing, matches zero rows and leaves storage
completely unchanged; no row is ever created by it. -/
theorem update_heartbeat_missing_row_spec :
    (∀ (db : TaskDB) (id : String) (now : Int),
        task_lookup db id = none → update_heartbeat_db db id now = db) ∧
    (∀ (db : TaskDB) (id : String) (now : Int),
        (update_heartbeat_db db id now).length = db.length) := by
  constructor
  · intro db id now
    induction db with
    | nil => intro _; rfl
    | cons p rest ih =>
      intro h
      obtain ⟨k, t⟩ := p
      by_cases hk : k = id
      · subst hk
        simp [task_lookup] at h
      · simp only [task_lookup, if_neg hk] at h
        simp only [update_heartbeat_db, List.map_cons] at ih ⊢
        rw [if_neg hk, ih h]
  · intro db id now
    simp [update_heartbeat_db]

theorem update_heartbeat_missing_row_spec_witness :
    task_lookup [("other", sampleTaskRow)] "t1" = none ∧
    update_heartbeat_db [("other", sampleTaskRow)] "t1" 99 =
      [("other", sampleTaskRow)] :=
  ⟨by decide,
   update_heartbeat_missing_row_spec.1 [("other", sampleTaskRow)] "t1" 99 (by decide)⟩

/-- C4: in every main-loop iteration that polls a STOP command the loop
sets status STOPPED and waits a fixed short interval, never invoking the
cycle; the cycle stays uninvoked across any run of iterations in which the
command remains set, and the waiting happens in cancellable one-second
sleeps bounded by the requested interval. -/
theorem main_loop_stop_spec :
    (∀ (cycle_fails : Bool) (sync_interval : Nat),
        main_loop_iter true cycle_fails sync_interval =
          [LoopEvent.set_status "STOPPED", LoopEvent.wait 10]) ∧
    (∀ (iters : List (Bool × Bool)) (sync_interval : Nat),
        (∀ it ∈ iters, it.1 = true) →
        LoopEvent.run_cycle ∉ main_loop_trace iters sync_interval) ∧
    (∀ (n : Nat) (running stop_cmd : Nat → Bool),
        smart_wait n running stop_cmd ≤ n) := by
  refine ⟨?_, ?_, ?_⟩
  · intro cf si
    rfl
  · intro iters si h hmem
    rw [main_loop_trace, List.mem_flatMap] at hmem
    obtain ⟨it, hit, hm⟩ := hmem
    rw [h it hit] at hm
    simp [main_loop_iter] at hm
  · intro n
    induction n with
    | zero => intro r s; simp [smart_wait]
    | succ n ih =>
      intro r s
      rw [smart_wait]
      by_cases h1 : r 0 = false
      · simp [h1]
      · rw [if_neg h1]
        by_cases h2 : s 0
        · simp [h2]
        · rw [if_neg (by simpa using h2)]
          have := ih (fun i => r (i + 1)) (fun i => s (i + 1))
          omega

theorem main_loop_stop_spec_witness :
    (∀ it ∈ [((true, false) : Bool × Bool), (true, true)], it.1 = true) ∧
    LoopEvent.run_cycle ∉ main_loop_trace [(true, false), (true, true)] 30 :=
  ⟨by decide,
   main_loop_stop_spec.2.1 [(true, false), (true, true)] 30 (by decide)⟩

theorem page_loop_calls_le_aux :
    ∀ (fuel : Nat) (fetch : String → Except FetchErr Page) (stop : Nat → Bool)
      (c : String) (pc : Nat) (acc : List RawOrder) (calls : Nat),
      (page_loop_aux fetch stop fuel c pc acc calls).2 ≤ calls + fuel := by
  intro fuel
  induction fuel with
  | zero =>
    intro fetch stop c pc acc calls
    simp [page_loop_aux]
  | succ fuel ih =>
    intro fetch stop c pc acc calls
    rw [page_loop_aux]
    by_cases hpc : pc < 200
    · rw [if_pos hpc]
      by_cases hstop : stop pc
      · simp [hstop]
      · rw [if_neg (by simpa using hstop)]
        cases hf : fetch c with
        | error e => simp
        | ok page =>
          by_cases hdone : page.has_more = false ∨ page.next_cursor = c
          · simp [hdone]
          · simp only [hdone, if_false]
            have := ih fetch stop page.next_cursor (pc + 1)
              (acc ++ page.orders) (calls + 1)
            omega
    · rw [if_neg hpc]
      simp

/-- C5: the per-day pagination loop always terminates with at most 200
page fetches, and a single fetch ends the day's paging as soon as it
reports no more data, returns a cursor equal to the one just used (stall
detection), or raises an error. -/
theorem page_loop_termination_spec :
    (∀ (fetch : String → Except FetchErr Page) (stop : Nat → Bool),
        (page_loop fetch stop).2 ≤ 200) ∧
    (∀ (fetch : String → Except FetchErr Page) (stop : Nat → Bool)
        (fuel : Nat) (c : String) (pc : Nat) (acc : List RawOrder)
        (calls : Nat) (p : Page),
        pc < 200 → stop pc = false → fetch c = Except.ok p →
        p.next_cursor = c →
        page_loop_aux fetch stop (fuel + 1) c pc acc calls =
          (acc ++ p.orders, calls + 1)) ∧
    (∀ (fetch : String → Except FetchErr Page) (stop : Nat → Bool)
        (fuel : Nat) (c : String) (pc : Nat) (acc : List RawOrder)
        (calls : Nat) (p : Page),
        pc < 200 → stop pc = false → fetch c = Except.ok p →
        p.has_more = false →
        page_loop_aux fetch stop (fuel + 1) c pc acc calls =
          (acc ++ p.orders, calls + 1)) ∧
    (∀ (fetch : String → Except FetchErr Page) (stop : Nat → Bool)
        (fuel : Nat) (c : String) (pc : Nat) (acc : List RawOrder)
        (calls : Nat) (e : FetchErr),
        pc < 200 → stop pc = false → fetch c = Except.error e →
        page_loop_aux fetch stop (fuel + 1) c pc acc calls = (acc, calls + 1)) := by
  refine ⟨?_, ?_, ?_, ?_⟩
  · intro fetch stop
    exact page_loop_calls_le_aux 200 fetch stop "0" 0 [] 0
  · intro fetch stop fuel c pc acc calls p hpc hstop hf hcur
    rw [page_loop_aux, if_pos hpc, if_neg (by simp [hstop]), hf]
    simp [hcur]
  · intro fetch stop fuel c pc acc calls p hpc hstop hf hmore
    rw [page_loop_aux, if_pos hpc, if_neg (by simp [hstop]), hf]
    simp [hmore]
  · intro fetch stop fuel c pc acc calls e hpc hstop hf
    rw [page_loop_aux, if_pos hpc, if_neg (by simp [hstop]), hf]

theorem page_loop_termination_spec_witness :
    (page_loop (fun c => Except.ok ⟨[], true, c⟩) (fun _ => false)).2 ≤ 200 ∧
    page_loop_aux (fun c => Except.ok (⟨[], true, c⟩ : Page)) (fun _ => false)
        200 "0" 0 [] 0 = ([], 1) :=
  ⟨page_loop_termination_spec.1 (fun c => Except.ok ⟨[], true, c⟩) (fun _ => false),
   by
    have := page_loop_termination_spec.2.1 (fun c => Except.ok ⟨[], true, c⟩)
      (fun _ => false) 199 "0" 0 [] 0 ⟨[], true, "0"⟩ (by decide) rfl rfl rfl
    simpa using this⟩

theorem on_conflict_update_eq (old r : OrderRow) (h : old.order_id = r.order_id) :
    on_conflict_update old r = { r with create_time := old.create_time } := by
  cases old
  cases r
  simp only [on_conflict_update] at h ⊢
  simp_all

theorem mem_upsertRow_eq (s : Store) (r p : OrderRow)
    (hp : p ∈ upsertRow s r) (hid : p.order_id = r.order_id) :
    ∃ c, p = { r with create_time := c } := by
  unfold upsertRow at hp
  by_cases hany : s.any (fun old => old.order_id == r.order_id) = true
  · rw [if_pos hany] at hp
    obtain ⟨old, hold, hfold⟩ := List.mem_map.mp hp
    by_cases h : old.order_id = r.order_id
    · rw [if_pos h] at hfold
      exact ⟨old.create_time, by rw [← hfold, on_conflict_update_eq old r h]⟩
    · rw [if_neg h] at hfold
      rw [← hfold] at hid
      exact absurd hid h
  · rw [if_neg hany] at hp
    rcases List.mem_append.mp hp with h1 | h2
    · exfalso
      apply hany
      exact List.any_eq_true.mpr ⟨p, h1, by simp [hid]⟩
    · have hpr : p = r := by simpa using h2
      exact ⟨r.create_time, hpr⟩

theorem mem_upsertRow_ne (s : Store) (r p : OrderRow)
    (hp : p ∈ upsertRow s r) (hid : p.order_id ≠ r.order_id) : p ∈ s := by
  unfold upsertRow at hp
  by_cases hany : s.any (fun old => old.order_id == r.order_id) = true
  · rw [if_pos hany] at hp
    obtain ⟨old, hold, hfold⟩ := List.mem_map.mp hp
    by_cases h : old.order_id = r.order_id
    · rw [if_pos h] at hfold
      exfalso
      apply hid
      rw [← hfold]
      exact h
    · rw [if_neg h] at hfold
      rw [← hfold]
      exact hold
  · rw [if_neg hany] at hp
    rcases List.mem_append.mp hp with h1 | h2
    · exact h1
    · exfalso
      have hpr : p = r := by simpa using h2
      exact hid (by rw [hpr])

theorem foldl_upsert_mem_ne :
    ∀ (rows : List OrderRow) (s : Store) (k : Option String),
      (∀ r' ∈ rows, r'.order_id ≠ k) →
      ∀ p, p ∈ rows.foldl upsertRow s → p.order_id = k → p ∈ s := by
  intro rows
  induction rows with
  | nil => intro s k _ p hp _; exact hp
  | cons r1 rs ih =>
    intro s k hrows p hp hid
    have h1 : p ∈ upsertRow s r1 :=
      ih (upsertRow s r1) k (fun r' h => hrows r' (List.mem_cons_of_mem r1 h)) p hp hid
    exact mem_upsertRow_ne s r1 p h1
      (fun hc => hrows r1 (List.mem_cons_self r1 rs) (by rw [← hc]; exact hid))

theorem foldl_upsert_mem_form :
    ∀ (rows : List OrderRow) (s : Store) (r : OrderRow),
      (rows.map (fun x => x.order_id)).Nodup → r ∈ rows →
      ∀ p, p ∈ rows.foldl upsertRow s → p.order_id = r.order_id →
      ∃ c, p = { r with create_time := c } := by
  intro rows
  induction rows with
  | nil => intro s r _ hr; exact absurd hr (List.not_mem_nil r)
  | cons r1 rs ih =>
    intro s r hnd hr p hp hid
    have hnd' := hnd
    rw [List.map_cons, List.nodup_cons] at hnd'
    obtain ⟨hnotin, htail⟩ := hnd'
    rcases List.mem_cons.mp hr with heq | hmem
    · rw [heq] at hid ⊢
      have hne : ∀ r' ∈ rs, r'.order_id ≠ r1.order_id := by
        intro r' h' hc
        exact hnotin (hc ▸ List.mem_map_of_mem (fun x => x.order_id) h')
      have h1 : p ∈ upsertRow s r1 :=
        foldl_upsert_mem_ne rs (upsertRow s r1) r1.order_id hne p hp hid
      exact mem_upsertRow_eq s r1 p h1 hid
    · exact ih (upsertRow s r1) r htail hmem p hp hid

theorem upsertRow_member_key (s : Store) (r : OrderRow) :
    (upsertRow s r).any (fun old => old.order_id == r.order_id) = true := by
  unfold upsertRow
  by_cases hany : s.any (fun old => old.order_id == r.order_id) = true
  · rw [if_pos hany]
    obtain ⟨old, hold, hbeq⟩ := List.any_eq_true.mp hany
    apply List.any_eq_true.mpr
    refine ⟨(if old.order_id = r.order_id then on_conflict_update old r else old),
      List.mem_map_of_mem _ hold, ?_⟩
    by_cases h : old.order_id = r.order_id
    · rw [if_pos h]
      exact hbeq
    · rw [if_neg h]
      exact hbeq
  · rw [if_neg hany]
    apply List.any_eq_true.mpr
    exact ⟨r, by simp, by simp⟩

theorem upsertRow_any_mono (s : Store) (r : OrderRow) (k : Option String)
    (h : s.any (fun old => old.order_id == k) = true) :
    (upsertRow s r).any (fun old => old.order_id == k) = true := by
  unfold upsertRow
  obtain ⟨old, hold, hbeq⟩ := List.any_eq_true.mp h
  by_cases hany : s.any (fun old => old.order_id == r.order_id) = true
  · rw [if_pos hany]
    apply List.any_eq_true.mpr
    refine ⟨(if old.order_id = r.order_id then on_conflict_update old r else old),
      List.mem_map_of_mem _ hold, ?_⟩
    by_cases h2 : old.order_id = r.order_id
    · rw [if_pos h2]
      exact hbeq
    · rw [if_neg h2]
      exact hbeq
  · rw [if_neg hany]
    exact List.any_eq_true.mpr ⟨old, by simp [hold], hbeq⟩

theorem foldl_upsert_any_mono :
    ∀ (rows : List OrderRow) (s : Store) (k : Option String),
      s.any (fun old => old.order_id == k) = true →
      (rows.foldl upsertRow s).any (fun old => old.order_id == k) = true := by
  intro rows
  induction rows with
  | nil => intro s k h; exact h
  | cons r1 rs ih =>
    intro s k h
    exact ih (upsertRow s r1) k (upsertRow_any_mono s r1 k h)

theorem foldl_upsert_any :
    ∀ (rows : List OrderRow) (s : Store) (r : OrderRow), r ∈ rows →
      (rows.foldl upsertRow s).any (fun old => old.order_id == r.order_id) = true := by
  intro rows
  induction rows with
  | nil => intro s r hr; exact absurd hr (List.not_mem_nil r)
  | cons r1 rs ih =>
    intro s r hr
    rcases List.mem_cons.mp hr with heq | hmem
    · rw [heq]
      exact foldl_upsert_any_mono rs (upsertRow s r1) r1.order_id
        (upsertRow_member_key s r1)
    · exact ih (upsertRow s r1) r hmem

theorem upsertRow_fix (s : Store) (r : OrderRow)
    (hany : s.any (fun old => old.order_id == r.order_id) = true)
    (hform : ∀ p ∈ s, p.order_id = r.order_id →
        ∃ c, p = { r with create_time := c }) :
    upsertRow s r = s := by
  unfold upsertRow
  rw [if_pos hany]
  have hid : ∀ p ∈ s,
      (if p.order_id = r.order_id then on_conflict_update p r else p) = p := by
    intro p hp
    by_cases h : p.order_id = r.order_id
    · rw [if_pos h]
      obtain ⟨c, hc⟩ := hform p hp h
      rw [hc]
      exact on_conflict_update_eq _ _ rfl
    · rw [if_neg h]
  calc s.map (fun old =>
        if old.order_id = r.order_id then on_conflict_update old r else old)
      = s.map id := List.map_congr_left hid
    _ = s := List.map_id s

theorem foldl_upsert_fix :
    ∀ (rows : List OrderRow) (s : Store),
      (∀ r ∈ rows, upsertRow s r = s) → rows.foldl upsertRow s = s := by
  intro rows
  induction rows with
  | nil => intro s _; rfl
  | cons r1 rs ih =>
    intro s h
    show rs.foldl upsertRow (upsertRow s r1) = s
    rw [h r1 (List.mem_cons_self r1 rs)]
    exact ih s (fun r hr => h r (List.mem_cons_of_mem r1 hr))

theorem dictInsert_inv (m : List (String × RawOrder)) (k : String) (v : RawOrder)
    (hv : v.order_id = some k)
    (hm : ∀ kv ∈ m, kv.2.order_id = some kv.1) :
    ∀ kv ∈ dictInsert m k v, kv.2.order_id = some kv.1 := by
  intro kv hkv
  unfold dictInsert at hkv
  by_cases hany : m.any (fun p => p.1 == k) = true
  · rw [if_pos hany] at hkv
    obtain ⟨p, hp, hfp⟩ := List.mem_map.mp hkv
    by_cases h : p.1 = k
    · rw [if_pos h] at hfp
      rw [← hfp]
      show v.order_id = some p.1
      rw [h]
      exact hv
    · rw [if_neg h] at hfp
      rw [← hfp]
      exact hm p hp
  · rw [if_neg hany] at hkv
    rcases List.mem_append.mp hkv with h1 | h2
    · exact hm kv h1
    · have hkv2 : kv = (k, v) := by simpa using h2
      rw [hkv2]
      exact hv

theorem dictInsert_keys_nodup (m : List (String × RawOrder)) (k : String)
    (v : RawOrder) (h : (m.map Prod.fst).Nodup) :
    ((dictInsert m k v).map Prod.fst).Nodup := by
  unfold dictInsert
  by_cases hany : m.any (fun p => p.1 == k) = true
  · rw [if_pos hany]
    have hmap : (m.map (fun p => if p.1 = k then (p.1, v) else p)).map Prod.fst =
        m.map Prod.fst := by
      rw [List.map_map]
      exact List.map_congr_left (fun p _ => by by_cases h2 : p.1 = k <;> simp [h2])
    rw [hmap]
    exact h
  · rw [if_neg hany, List.map_append]
    simp only [List.map_cons, List.map_nil]
    rw [List.nodup_append]
    refine ⟨h, List.nodup_singleton k, ?_⟩
    intro a ha hb
    have hak : a = k := by simpa using hb
    subst hak
    obtain ⟨p, hp, hfp⟩ := List.mem_map.mp ha
    apply hany
    exact List.any_eq_true.mpr ⟨p, hp, by simp [hfp]⟩

theorem dedupeStep_inv (m : List (String × RawOrder)) (it : Item)
    (h1 : ∀ kv ∈ m, kv.2.order_id = some kv.1) (h2 : (m.map Prod.fst).Nodup) :
    (∀ kv ∈ dedupeStep m it, kv.2.order_id = some kv.1) ∧
      ((dedupeStep m it).map Prod.fst).Nodup := by
  cases it with
  | arr l2 => exact ⟨h1, h2⟩
  | obj o =>
    cases ho : o.order_id with
    | none =>
      simp only [dedupeStep, ho]
      exact ⟨h1, h2⟩
    | some oid =>
      by_cases hoid : oid = ""
      · simp only [dedupeStep, ho]
        rw [if_neg (by simp [hoid])]
        exact ⟨h1, h2⟩
      · simp only [dedupeStep, ho]
        rw [if_pos hoid]
        exact ⟨dictInsert_inv m oid o ho h1, dictInsert_keys_nodup m oid o h2⟩

theorem dedupe_foldl_inv :
    ∀ (l : List Item) (m : List (String × RawOrder)),
      (∀ kv ∈ m, kv.2.order_id = some kv.1) → (m.map Prod.fst).Nodup →
      (∀ kv ∈ l.foldl dedupeStep m, kv.2.order_id = some kv.1) ∧
        ((l.foldl dedupeStep m).map Prod.fst).Nodup := by
  intro l
  induction l with
  | nil => intro m h1 h2; exact ⟨h1, h2⟩
  | cons it rest ih =>
    intro m h1 h2
    have hstep := dedupeStep_inv m it h1 h2
    exact ih (dedupeStep m it) hstep.1 hstep.2

theorem dedupe_inv (l : List Item) :
    (∀ kv ∈ dedupe l, kv.2.order_id = some kv.1) ∧
      ((dedupe l).map Prod.fst).Nodup :=
  dedupe_foldl_inv l [] (by simp) (by simp)

theorem order_list_keys_nodup (decryptFn : String → Option String)
    (secret_set : Bool) (now : Int) (l : List Item) :
    (((dedupe l).map (fun kv => buildRow decryptFn secret_set now kv.2)).map
        (fun r => r.order_id)).Nodup := by
  rw [List.map_map]
  have h1 : (dedupe l).map
        ((fun r : OrderRow => r.order_id) ∘
          (fun kv : String × RawOrder => buildRow decryptFn secret_set now kv.2)) =
      (dedupe l).map (fun kv => some kv.1) :=
    List.map_congr_left (fun kv hkv => (dedupe_inv l).1 kv hkv)
  rw [h1]
  have h2 : (dedupe l).map (fun kv => some kv.1) =
      ((dedupe l).map Prod.fst).map some := by
    rw [List.map_map]
    rfl
  rw [h2]
  exact (dedupe_inv l).2.map (Option.some_injective String)

/-- C2 (amended): when `upsert` writes a raw order whose `orderId` already
exists in storage, the stored row takes every extracted field —
orderStatus, skuId, skuName, payAmount, count, payTime, updateTime,
sourceOrderId, phone, rawPayload, syncedAt — from the new raw order, while
`createTime` keeps the value of the existing row: it is absent from the
`ON CONFLICT DO UPDATE` column set. -/
theorem save_orders_overwrite_except_create_time :
    ∀ (decryptFn : String → Option String) (secret_set : Bool) (now : Int)
      (store : Store) (old : OrderRow) (o : RawOrder) (k : String),
      old ∈ store → old.order_id = some k → o.order_id = some k → k ≠ "" →
      on_conflict_update old (buildRow decryptFn secret_set now o) =
        { buildRow decryptFn secret_set now o with
            create_time := old.create_time } ∧
      { buildRow decryptFn secret_set now o with create_time := old.create_time } ∈
        (save_orders decryptFn secret_set now store [Item.obj o]).1 := by
  intro dFn ss now store old o k hmem hoid hooid hk
  have hrid : (buildRow dFn ss now o).order_id = some k := hooid
  have heq : on_conflict_update old (buildRow dFn ss now o) =
      { buildRow dFn ss now o with create_time := old.create_time } :=
    on_conflict_update_eq _ _ (by rw [hoid, hrid])
  refine ⟨heq, ?_⟩
  have hd : dedupe (flatten_once [Item.obj o]) = [(k, o)] := by
    simp [flatten_once, dedupe, dedupeStep, hooid, hk, dictInsert]
  have hsave : (save_orders dFn ss now store [Item.obj o]).1 =
      upsertRow store (buildRow dFn ss now o) := by
    simp [save_orders, hd]
  rw [hsave]
  have hany : store.any
      (fun x => x.order_id == (buildRow dFn ss now o).order_id) = true :=
    List.any_eq_true.mpr ⟨old, hmem, by simp [hoid, hrid]⟩
  unfold upsertRow
  rw [if_pos hany]
  apply List.mem_map.mpr
  refine ⟨old, hmem, ?_⟩
  rw [if_pos (by rw [hoid, hrid])]
  exact heq

theorem save_orders_overwrite_except_create_time_witness :
    oldRowA ∈ [oldRowA] ∧ oldRowA.order_id = some "A" ∧
    rawNew.order_id = some "A" ∧ ("A" : String) ≠ "" ∧
    (on_conflict_update oldRowA (buildRow dFn0 false 9 rawNew) =
        { buildRow dFn0 false 9 rawNew with
            create_time := oldRowA.create_time } ∧
      { buildRow dFn0 false 9 rawNew with create_time := oldRowA.create_time } ∈
        (save_orders dFn0 false 9 [oldRowA] [Item.obj rawNew]).1) :=
  ⟨by decide, by decide, by decide, by decide,
   save_orders_overwrite_except_create_time dFn0 false 9 [oldRowA] oldRowA rawNew
     "A" (by decide) (by decide) (by decide) (by decide)⟩

/-- C2 counterexample: re-syncing order "A" (old createTime 111, new
createTime 222) leaves the stored `create_time` at 111, so the claim that
every mutable field — createTime included — is overwritten by the new raw
order is false on the code. -/
theorem save_orders_create_time_survives_cex :
    (save_orders dFn0 false 9 [oldRowA] [Item.obj rawNew]).1 =
      [{ buildRow dFn0 false 9 rawNew with create_time := some 111 }] ∧
    (buildRow dFn0 false 9 rawNew).create_time = some 222 ∧
    ¬ (save_orders dFn0 false 9 [oldRowA] [Item.obj rawNew]).1 =
        [buildRow dFn0 false 9 rawNew] := by
  decide

/-- C8 (amended): re-running `upsert` with the identical batch returns the
same affected-row count and, provided the second call stamps the same
`syncedAt` timestamp, leaves the stored rows exactly identical; the row
count is independent of the timestamp of the second call. -/
theorem save_orders_idempotent_spec :
    ∀ (decryptFn : String → Option String) (secret_set : Bool) (now now2 : Int)
      (store : Store) (batch : List Item),
      save_orders decryptFn secret_set now
          (save_orders decryptFn secret_set now store batch).1 batch =
        save_orders decryptFn secret_set now store batch ∧
      (save_orders decryptFn secret_set now2
          (save_orders decryptFn secret_set now store batch).1 batch).2 =
        (save_orders decryptFn secret_set now store batch).2 := by
  intro dFn ss now now2 store batch
  by_cases hb : batch.isEmpty
  · constructor <;> simp [save_orders, hb]
  · by_cases hc : (dedupe (flatten_once batch)).isEmpty
    · constructor <;> simp [save_orders, hb, hc]
    · have key : ∀ (t : Int) (st : Store),
          save_orders dFn ss t st batch =
            (((dedupe (flatten_once batch)).map
                (fun kv => buildRow dFn ss t kv.2)).foldl upsertRow st,
             ((dedupe (flatten_once batch)).map
                (fun kv => buildRow dFn ss t kv.2)).length) := by
        intro t st
        simp [save_orders, hb, hc]
      have hnd : (((dedupe (flatten_once batch)).map
            (fun kv => buildRow dFn ss now kv.2)).map
              (fun r => r.order_id)).Nodup :=
        order_list_keys_nodup dFn ss now (flatten_once batch)
      set rows := (dedupe (flatten_once batch)).map
        (fun kv => buildRow dFn ss now kv.2) with hrows
      have hfix : rows.foldl upsertRow (rows.foldl upsertRow store) =
          rows.foldl upsertRow store := by
        apply foldl_upsert_fix
        intro r hr
        apply upsertRow_fix
        · exact foldl_upsert_any rows store r hr
        · intro p hp hpid
          exact foldl_upsert_mem_form rows store r hnd hr p hp hpid
      constructor
      · rw [key now store, key now]
        rw [← hrows, hfix]
      · rw [key now store, key now2]
        simp

/-- C8 counterexample: the same one-order batch upserted twice, at times 0
and then 1, yields the same row count but different stored rows — the
second call overwrites `sync_time` with its own `datetime.now()` — so the
stored state after the second call is not identical to the first. -/
theorem save_orders_sync_time_differs_cex :
    (save_orders dFn0 false 1
        (save_orders dFn0 false 0 [] [Item.obj rawNew]).1 [Item.obj rawNew]).2 =
      (save_orders dFn0 false 0 [] [Item.obj rawNew]).2 ∧
    ¬ (save_orders dFn0 false 1
          (save_orders dFn0 false 0 [] [Item.obj rawNew]).1 [Item.obj rawNew]).1 =
        (save_orders dFn0 false 0 [] [Item.obj rawNew]).1 ∧
    (save_orders dFn0 false 0 [] [Item.obj rawNew]).1.map
        (fun r => r.sync_time) = [0] ∧
    (save_orders dFn0 false 1
        (save_orders dFn0 false 0 [] [Item.obj rawNew]).1 [Item.obj rawNew]).1.map
        (fun r => r.sync_time) = [1] := by
  decide

/-- C1 (amended): `run_once` drains the entire day-batch generator with
`list(orders)` before writing anything: when the stream yields no batch it
performs no upsert at all, and otherwise it performs exactly one
`save_orders` call whose argument is the whole accumulated list of
day-batches, one nested level deep (which `save_orders` flattens). -/
theorem run_once_single_upsert_call :
    ∀ (decryptFn : String → Option String) (secret_set : Bool) (now : Int)
      (sync_time_str : String) (store : Store)
      (days : List (String → Except FetchErr Page)),
      upsert_calls (run_once decryptFn secret_set now false sync_time_str store days).1 =
        (if (fetch_all_orders_by_day false days).isEmpty then []
         else [(fetch_all_orders_by_day false days).map Item.arr]) := by
  intro dFn ss now stStr store days
  by_cases hb : (fetch_all_orders_by_day false days).isEmpty
  · simp [run_once, hb, upsert_calls]
  · simp [run_once, hb, upsert_calls]

/-- C1 counterexample: a window with two non-empty day-batches leads to a
single `save_orders` call containing both day-batches — not one call per
day-batch as the claim requires — so cross-day accumulation does occur
before writing. -/
theorem run_once_buffers_all_days_cex :
    (fetch_all_orders_by_day false [day1, day2]).length = 2 ∧
    upsert_calls (run_once dFn0 false 0 false "t" [] [day1, day2]).1 =
      [[Item.arr [sampleO1], Item.arr [sampleO2]]] ∧
    ¬ upsert_calls (run_once dFn0 false 0 false "t" [] [day1, day2]).1 =
        [[Item.obj sampleO1], [Item.obj sampleO2]] := by
  decide

/-- C3 (amended): an access-token exchange failure surfaces as an exception
inside `fetch_orders`, which runs inside the `try/except` of the per-day
pagination loop, so it is absorbed there: the day is truncated, the cycle
completes with an ok result and never sets status ERROR.  The ERROR status
with re-raise happens exactly when an exception is raised outside that
loop, e.g. by the storage write. -/
theorem run_once_absorbs_auth_errors :
    (∀ (decryptFn : String → Option String) (secret_set : Bool) (now : Int)
        (sync_time_str : String) (store : Store)
        (days : List (String → Except FetchErr Page)),
        (∀ e ∈ (run_once decryptFn secret_set now false sync_time_str store days).1,
            is_error_status e = false) ∧
        ∃ n, (run_once decryptFn secret_set now false sync_time_str store days).2.1 =
              RunResult.ok n) ∧
    (∀ (decryptFn : String → Option String) (secret_set : Bool) (now : Int)
        (sync_time_str : String) (store : Store)
        (days : List (String → Except FetchErr Page)),
        (fetch_all_orders_by_day false days).isEmpty = false →
        (run_once decryptFn secret_set now true sync_time_str store days).1 =
          [SyncEvent.set_status "RUNNING" none none,
           SyncEvent.set_status "ERROR" none (some "storage error")] ∧
        (run_once decryptFn secret_set now true sync_time_str store days).2.1 =
          RunResult.exc "storage error") := by
  constructor
  · intro dFn ss now stStr store days
    by_cases hb : (fetch_all_orders_by_day false days).isEmpty
    · constructor
      · intro e he
        simp [run_once, hb] at he
        subst he
        rfl
      · exact ⟨0, by simp [run_once, hb]⟩
    · constructor
      · intro e he
        simp [run_once, hb] at he
        rcases he with h | h | h <;> subst h <;> rfl
      · refine ⟨(save_orders dFn ss now store
          ((fetch_all_orders_by_day false days).map Item.arr)).2, ?_⟩
        simp [run_once, hb]
  · intro dFn ss now stStr store days hb
    constructor <;> simp [run_once, hb]

theorem run_once_absorbs_auth_errors_witness :
    (fetch_all_orders_by_day false [day1]).isEmpty = false ∧
    (run_once dFn0 false 0 true "t" [] [day1]).1 =
      [SyncEvent.set_status "RUNNING" none none,
       SyncEvent.set_status "ERROR" none (some "storage error")] ∧
    (run_once dFn0 false 0 true "t" [] [day1]).2.1 =
      RunResult.exc "storage error" :=
  ⟨by decide,
   (run_once_absorbs_auth_errors.2 dFn0 false 0 "t" [] [day1] (by decide)).1,
   (run_once_absorbs_auth_errors.2 dFn0 false 0 "t" [] [day1] (by decide)).2⟩

/-- C3 counterexample: a cycle in which every page fetch fails with the
token-exchange `ValueError` finishes normally — status stays RUNNING, no
ERROR status is written and `run_once` returns 0 instead of re-raising —
so the claimed propagation of the auth failure out of the cycle is false
on the code. -/
theorem run_once_auth_error_no_error_status_cex :
    run_once dFn0 false 0 false "t" [] [authDay] =
      ([SyncEvent.set_status "RUNNING" none none], RunResult.ok 0, []) ∧
    (run_once dFn0 false 0 false "t" [] [authDay]).1.all
        (fun e => !is_error_status e) = true := by
  decide

end DouyinSync
